import Mathlib

set_option maxRecDepth 8192

/-!
Shallow embedding of the transcript-resolution pipeline of the
`plugin-video` repository (src/services/video.ts), together with proofs
about it.  Pure string manipulation (the `getVideoId` hash, the YouTube
URL pattern, `parseSRT`, `parseCaption`) is translated directly from the
source; stateful parts (queue drain, cache, filesystem) are modelled by
explicit state passing, with external collaborators (network fetches,
youtube-dl, ffmpeg, the transcription service) supplied as oracle
parameters, exactly at the boundaries the source calls them.
-/

namespace PluginVideo

/-! ### Identity resolver: `VideoService.getVideoId` (video.ts lines 163-172)

JavaScript evaluates `hash = ((hash << 5) - hash) + char` with `<<`
coercing to a signed 32-bit integer, followed by `hash = hash & hash`
which coerces the double back to a signed 32-bit integer; finally
`Math.abs(hash).toString(36)`.  We model signed 32-bit coercion over `Int`
and base-36 rendering over `Nat` (`0`-`9` then `a`-`z`, as in JS). -/

/-- ToInt32 coercion of ECMAScript: reduce mod 2^32 into [-2^31, 2^31). -/
def toInt32 (n : Int) : Int :=
  let m := n % 4294967296
  if m < 2147483648 then m else m - 4294967296

/-- One step of the accumulator loop in `getVideoId`:
`hash = (hash << 5) - hash + char` then `hash = hash & hash`. -/
def hashStep (h : Int) (c : Nat) : Int :=
  toInt32 (toInt32 (h * 32) - h + (c : Int))

/-- Digit characters used by JavaScript `Number.prototype.toString(36)`. -/
def digit36 (n : Nat) : Char :=
  if n < 10 then Char.ofNat (48 + n) else Char.ofNat (87 + n)

/-- Accumulate base-36 digits of a number, most significant first; the
first argument is fuel (structural, so the function reduces
definitionally), always called with at least as much fuel as there are
digits. -/
def toBase36Aux : Nat → Nat → List Char → List Char
  | _, 0, acc => acc
  | 0, _, acc => acc
  | Nat.succ fuel, Nat.succ n, acc =>
      toBase36Aux fuel (Nat.succ n / 36) (digit36 (Nat.succ n % 36) :: acc)

/-- JavaScript `n.toString(36)` for a natural number. -/
def toBase36 (n : Nat) : String :=
  if n = 0 then "0" else String.mk (toBase36Aux n n [])

/-- The simple string hash of `VideoService.getVideoId` (video.ts 163-172):
fold the 32-bit accumulator over the code units of the string, then render
`Math.abs(hash)` in base 36.  (Characters are taken as their code points;
for the ASCII URLs the service handles this coincides with UTF-16 units.) -/
def getVideoId (url : String) : String :=
  toBase36 (Int.natAbs (url.data.foldl (fun h c => hashStep h c.toNat) 0))

/-! ### The YouTube URL pattern of `processVideoFromUrl` (video.ts 133-136)

The regular expression
`(?:youtu\.be\/|youtube\.com(?:\/embed\/|\/v\/|\/watch\?v=|\/watch\?.+&v=))([^\/&?]+)`
is matched against the URL and capture group 1 extracted.  We implement
its exact backtracking semantics on `List Char`: leftmost start position
wins, alternatives are tried left to right, `.+` is greedy with
backtracking, and the capture `[^\/&?]+` is a maximal nonempty run of
characters other than `/`, `&`, `?`. -/

/-- Capture group `([^\/&?]+)`: a maximal nonempty run of characters
other than `/`, `&` and `?`, or failure. -/
def captureAt (cs : List Char) : Option (List Char) :=
  let r := cs.takeWhile (fun c => c != '/' && c != '&' && c != '?')
  if r.isEmpty then none else some r

/-- Characters matched by `.` in a JavaScript regex without the `s` flag
(anything but a line terminator). -/
def dotChar (c : Char) : Bool :=
  c != '\n' && c != '\r'

/-- Backtracking for `\.+&v=` followed by the capture: try the split with
`k` characters consumed by `.+` (from longest to shortest, as a greedy
engine does), requiring `&v=` and then a nonempty capture. -/
def ytWatchAmpAux (cs : List Char) : Nat → Option (List Char)
  | 0 => none
  | Nat.succ k =>
      match (if List.isPrefixOf ['&', 'v', '='] (cs.drop (Nat.succ k)) then
               captureAt (cs.drop (Nat.succ k + 3))
             else none) with
      | some r => some r
      | none => ytWatchAmpAux cs k

/-- Match `.+&v=([^\/&?]+)` against `cs` (the text after `/watch?`):
`.+` consumes at most the maximal run of non-line-terminator characters
and backtracks from there. -/
def ytWatchAmp (cs : List Char) : Option (List Char) :=
  ytWatchAmpAux cs (cs.takeWhile dotChar).length

/-- Attempt the whole pattern anchored at the head of `cs`; alternatives
in source order, returning the capture. -/
def ytMatchAt (cs : List Char) : Option (List Char) :=
  if List.isPrefixOf "youtu.be/".data cs then
    captureAt (cs.drop 9)
  else if List.isPrefixOf "youtube.com".data cs then
    let rest := cs.drop 11
    (if List.isPrefixOf "/embed/".data rest then captureAt (rest.drop 7) else none) <|>
    (if List.isPrefixOf "/v/".data rest then captureAt (rest.drop 3) else none) <|>
    (if List.isPrefixOf "/watch?v=".data rest then captureAt (rest.drop 9) else none) <|>
    (if List.isPrefixOf "/watch?".data rest then ytWatchAmp (rest.drop 7) else none)
  else none

/-- Unanchored search: leftmost start position at which the pattern
matches wins. -/
def ytSearch : List Char → Option (List Char)
  | [] => none
  | c :: cs =>
      match ytMatchAt (c :: cs) with
      | some r => some r
      | none => ytSearch cs

/-- Group 1 of `url.match(/(?:youtu\.be\/|youtube\.com(?:\/embed\/|\/v\/|\/watch\?v=|\/watch\?.+&v=))([^\/&?]+)/)`
(video.ts 133-136), or `none` when the pattern does not match. -/
def ytExtract (url : String) : Option String :=
  (ytSearch url.data).map String.mk

/-! ### `VideoService.parseSRT` (video.ts 276-282)

`srtContent.split("\n\n").map(block => block.split("\n").slice(2).join(" ")).join(" ")`.
JavaScript `String.prototype.split` with these separators is embedded
directly (leftmost, non-overlapping, keeping empty pieces). -/

/-- JavaScript `s.split("\n")` on the character list. -/
def splitOnNL : List Char → List (List Char)
  | [] => [[]]
  | c :: cs =>
      if c = '\n' then [] :: splitOnNL cs
      else
        match splitOnNL cs with
        | [] => [[c]]
        | h :: t => (c :: h) :: t

/-- JavaScript `s.split("\n\n")` on the character list: leftmost,
non-overlapping occurrences of two consecutive newlines. -/
def splitOnNLNL : List Char → List (List Char)
  | [] => [[]]
  | [c] => [[c]]
  | c1 :: c2 :: cs =>
      if c1 = '\n' ∧ c2 = '\n' then [] :: splitOnNLNL cs
      else
        match splitOnNLNL (c2 :: cs) with
        | [] => [[c1]]
        | h :: t => (c1 :: h) :: t

/-- String-level `split("\n")`. -/
def jsSplitNL (s : String) : List String :=
  (splitOnNL s.data).map String.mk

/-- String-level `split("\n\n")`. -/
def jsSplit2NL (s : String) : List String :=
  (splitOnNLNL s.data).map String.mk

/-- The simple SRT parser of `VideoService.parseSRT` (video.ts 276-282):
split into blocks on blank lines, drop the first two header lines of each
block, join the remaining lines with spaces, join the blocks with
spaces. -/
def parseSRT (srtContent : String) : String :=
  String.intercalate " "
    ((jsSplit2NL srtContent).map (fun block =>
      String.intercalate " " ((jsSplitNL block).drop 2)))

/-! ### `VideoService.parseCaption` (video.ts 259-274)

The caption payload arrives as text and is fed to `JSON.parse`; we embed
JSON values as an inductive type and model the outcome of `JSON.parse` as
`Option Json` (`none` = the parse threw).  Property accesses, truthiness
tests, `filter`/`map` on non-arrays and `join` element stringification
follow ECMAScript semantics; every throw inside the `try` is caught and
yields the sentinel string. -/

/-- JSON values as produced by `JSON.parse`. -/
inductive Json where
  | null
  | bool (b : Bool)
  | num (n : Int)
  | str (s : String)
  | arr (elems : List Json)
  | obj (fields : List (String × Json))

/-- Object field lookup; on duplicate keys `JSON.parse` keeps the last
occurrence, so later fields win. -/
def lookupField : List (String × Json) → String → Option Json
  | [], _ => none
  | (k, v) :: rest, key =>
      match lookupField rest key with
      | some r => some r
      | none => if k == key then some v else none

/-- Property access `j[key]` in ECMAScript: throws (`.error`) on `null`,
yields the field for objects, and `undefined` (`none`) for every other
JSON value (primitives box to objects without these fields; the arrays
here have no such named properties). -/
def jsGet : Json → String → Except Unit (Option Json)
  | .null, _ => .error ()
  | .obj fields, key => .ok (lookupField fields key)
  | _, _ => .ok none

/-- ECMAScript truthiness of a JSON value (`NaN` cannot arise from
`JSON.parse`). -/
def truthy : Json → Bool
  | .null => false
  | .bool b => b
  | .num n => n != 0
  | .str s => s != ""
  | .arr _ => true
  | .obj _ => true

mutual

/-- Stringification of an array element under `Array.prototype.join`:
`null` and `undefined` become the empty string, strings stay themselves,
numbers and booleans render as by `String(..)`, nested arrays join their
elements with commas, plain objects render as `[object Object]`. -/
def jsItemString : Json → String
  | .null => ""
  | .bool b => if b then "true" else "false"
  | .num n => toString n
  | .str s => s
  | .arr xs => jsItemStringList xs
  | .obj _ => "[object Object]"

def jsItemStringList : List Json → String
  | [] => ""
  | [x] => jsItemString x
  | x :: y :: xs => jsItemString x ++ "," ++ jsItemStringList (y :: xs)

end

/-- Join element for a possibly-`undefined` value (`undefined` joins as
the empty string). -/
def joinItem : Option Json → String
  | none => ""
  | some j => jsItemString j

/-- Truthiness of `event.segs` (the `filter` predicate), with the
possible throw of the property access. -/
def segsTruthy (e : Json) : Except Unit Bool :=
  match jsGet e "segs" with
  | .error x => .error x
  | .ok none => .ok false
  | .ok (some v) => .ok (truthy v)

/-- `events.filter(event => event.segs)` with left-to-right evaluation
and error propagation. -/
def filterSegs : List Json → Except Unit (List Json)
  | [] => .ok []
  | e :: es =>
      match segsTruthy e with
      | .error x => .error x
      | .ok b =>
          match filterSegs es with
          | .error x => .error x
          | .ok rest => .ok (if b then e :: rest else rest)

/-- `segs.map(seg => seg.utf8)`: collect the (possibly `undefined`)
`utf8` properties, propagating a throw. -/
def segUtf8s : List Json → Except Unit (List (Option Json))
  | [] => .ok []
  | s :: ss =>
      match jsGet s "utf8" with
      | .error x => .error x
      | .ok v =>
          match segUtf8s ss with
          | .error x => .error x
          | .ok rest => .ok (v :: rest)

/-- `event.segs.map(seg => seg.utf8).join("")` for one kept event;
`.map` on a non-array (or on `undefined`) throws. -/
def eventText (e : Json) : Except Unit String :=
  match jsGet e "segs" with
  | .error x => .error x
  | .ok (some (.arr segs)) =>
      match segUtf8s segs with
      | .error x => .error x
      | .ok frags => .ok (String.join (frags.map joinItem))
  | .ok (some _) => .error ()
  | .ok none => .error ()

/-- The outer `.map(event => ...)` over the filtered events. -/
def mapEventTexts : List Json → Except Unit (List String)
  | [] => .ok []
  | e :: es =>
      match eventText e with
      | .error x => .error x
      | .ok s =>
          match mapEventTexts es with
          | .error x => .error x
          | .ok rest => .ok (s :: rest)

/-- JavaScript `s.replace("\n", " ")`: replace only the first newline,
on the character list. -/
def replaceFirstNLList : List Char → List Char
  | [] => []
  | c :: cs => if c = '\n' then ' ' :: cs else c :: replaceFirstNLList cs

/-- JavaScript `s.replace("\n", " ")`. -/
def replaceFirstNewline (s : String) : String :=
  String.mk (replaceFirstNLList s.data)

/-- Body of the `try` block of `parseCaption` after `JSON.parse`
succeeded (video.ts 262-270): the truthiness check on `.events`, the
filter/map/join chain, and the single `replace`. -/
def parseCaptionRun (j : Json) : Except Unit String :=
  match jsGet j "events" with
  | .error x => .error x
  | .ok none => .ok "Error: Unable to parse captions"
  | .ok (some ev) =>
      if truthy ev then
        match ev with
        | .arr events =>
            match filterSegs events with
            | .error x => .error x
            | .ok kept =>
                match mapEventTexts kept with
                | .error x => .error x
                | .ok pieces => .ok (replaceFirstNewline (String.join pieces))
        | _ => .error ()
      else .ok "Error: Unable to parse captions"

/-- `VideoService.parseCaption` (video.ts 259-274) on the outcome of
`JSON.parse` (`none` = the payload was not valid JSON, so `JSON.parse`
threw); any throw inside the `try` yields the sentinel string. -/
def parseCaption (parsed : Option Json) : String :=
  match parsed with
  | none => "Error: Unable to parse captions"
  | some j =>
      match parseCaptionRun j with
      | .ok s => s
      | .error _ => "Error: Unable to parse captions"

/-! ### Well-formed caption payloads (for reasoning about the success path) -/

/-- A caption segment as in a well-formed payload: an object carrying a
string `utf8` fragment. -/
structure CaptionSeg where
  utf8 : String
deriving DecidableEq

/-- A caption event as in a well-formed payload: an object optionally
carrying a `segs` array. -/
structure CaptionEvent where
  segs : Option (List CaptionSeg)
deriving DecidableEq

/-- JSON encoding of a well-formed segment. -/
def segToJson (s : CaptionSeg) : Json :=
  .obj [("utf8", .str s.utf8)]

/-- JSON encoding of a well-formed event. -/
def eventToJson (e : CaptionEvent) : Json :=
  match e.segs with
  | none => .obj []
  | some ss => .obj [("segs", .arr (ss.map segToJson))]

/-- JSON encoding of a well-formed caption payload. -/
def captionPayload (evs : List CaptionEvent) : Json :=
  .obj [("events", .arr (evs.map eventToJson))]

/-- The events kept by the `filter` step: those whose `segs` is present
(an array is truthy even when empty). -/
def keptEvents (evs : List CaptionEvent) : List (List CaptionSeg) :=
  evs.filterMap (fun e => e.segs)

/-- Concatenation of all fragment text across all kept events, in order,
before the `replace`. -/
def captionConcat (evs : List CaptionEvent) : String :=
  String.join ((keptEvents evs).map (fun ss => String.join (ss.map (fun s => s.utf8))))

/-! ### Data model of the pipeline -/

/-- A subtitle or automatic-caption track descriptor (`{url}` entries of
`subtitles.en` / `automatic_captions.en`). -/
structure SubtitleTrack where
  url : String
deriving DecidableEq

/-- The metadata fields of `videoInfo` that `processVideoFromUrl` and
`getTranscript` read (video.ts 146-156, 210-247).  `subtitles_en` models
the combined check `videoInfo.subtitles && videoInfo.subtitles.en`
(`some` = both present; the value, an array, is then truthy), and
likewise `automatic_captions_en` and `categories`. -/
structure VideoInfo where
  title : String
  channel : String
  description : String
  subtitles_en : Option (List SubtitleTrack)
  automatic_captions_en : Option (List SubtitleTrack)
  categories : Option (List String)
deriving DecidableEq

/-- The cached `TranscriptRecord` assembled at video.ts 149-156. -/
structure Record where
  id : String
  url : String
  title : String
  source : String
  description : String
  text : String
deriving DecidableEq

/-- An external call made by the transcript resolver, for call-count and
ordering assertions. -/
inductive Call where
  | srt (url : String)
  | caption (url : String)
  | transcribe
deriving DecidableEq

/-- Oracles for the external collaborators invoked by `getTranscript`:
`srtFetch` is `downloadSRT` (plain fetch of the subtitle resource, which
may reject), `captionFetch` is `downloadCaption` (throws on a non-OK
response) composed with the `JSON.parse` that `parseCaption` performs on
the fetched text (`none` = the text was not valid JSON), and
`transcribeAudioFn` is the whole `transcribeAudio` path (local audio
production plus the host transcription service), which may throw. -/
structure Oracles where
  srtFetch : String → Except String String
  captionFetch : String → Except String (Option Json)
  transcribeAudioFn : String → Except String String

/-- `VideoService.getTranscript` (video.ts 210-247): manual subtitles,
else automatic captions, else the music short-circuit, else audio
transcription.  Alongside the outcome it returns the list of external
calls made, in order.  When the `en` track list is present but empty,
`subtitles.en[0].url` evaluates `.url` on `undefined`, which throws
before any download happens; the surrounding `try` rethrows. -/
def getTranscript (url : String) (vi : VideoInfo) (o : Oracles) :
    Except String String × List Call :=
  match vi.subtitles_en with
  | some [] => (.error "TypeError: cannot read url of undefined", [])
  | some (t :: _) =>
      (match o.srtFetch t.url with
       | .ok content => (.ok (parseSRT content), [.srt t.url])
       | .error e => (.error e, [.srt t.url]))
  | none =>
      match vi.automatic_captions_en with
      | some [] => (.error "TypeError: cannot read url of undefined", [])
      | some (t :: _) =>
          (match o.captionFetch t.url with
           | .ok parsed => (.ok (parseCaption parsed), [.caption t.url])
           | .error e => (.error e, [.caption t.url]))
      | none =>
          match vi.categories with
          | some cats =>
              if cats.contains "Music" then (.ok "No lyrics available.", [])
              else
                match o.transcribeAudioFn url with
                | .ok t => (.ok t, [.transcribe])
                | .error e => (.error e, [.transcribe])
          | none =>
              match o.transcribeAudioFn url with
              | .ok t => (.ok t, [.transcribe])
              | .error e => (.error e, [.transcribe])

/-! ### Cache gateway and pipeline orchestrator
(`processVideoFromUrl`, video.ts 129-161) -/

/-- The cache store, modelled as an association list where the most
recent `set` for a key wins. -/
abbrev Cache := List (String × Record)

/-- `runtime.cacheManager.get(key)`. -/
def cacheGet (cache : Cache) (k : String) : Option Record :=
  (cache.find? (fun p => p.1 == k)).map (fun p => p.2)

/-- `runtime.cacheManager.set(key, record)`. -/
def cacheSet (cache : Cache) (k : String) (r : Record) : Cache :=
  (k, r) :: cache

/-- The `videoUuid` of video.ts 133-137: hash of the regex capture when
the URL matches the YouTube pattern, hash of the empty string otherwise
(`url.match(...)?.[1] || ""`). -/
def pipeVideoUuid (url : String) : String :=
  getVideoId ((ytExtract url).getD "")

/-- The fixed cache namespace `this.cacheKey` (video.ts line 9). -/
def cacheKeyNS : String := "content/video"

/-- The cache key of video.ts line 138. -/
def pipeCacheKey (url : String) : String :=
  cacheKeyNS ++ "/" ++ pipeVideoUuid url

/-- Outcome of one `processVideoFromUrl` run: the returned record or the
propagated error, the cache afterwards, the number of `fetchVideoInfo`
invocations, and the transcript resolver's external calls. -/
structure PipeResult where
  outcome : Except String Record
  cache : Cache
  infoCalls : Nat
  calls : List Call

/-- `VideoService.processVideoFromUrl` (video.ts 129-161), with the
metadata fetch `fetchVideoInfo` (a network call to youtube-dl or a plain
HTTP probe, video.ts 174-208) as an oracle: derive the uuid and cache
key, short-circuit on a cache hit, otherwise fetch metadata, resolve the
transcript, assemble the record, write it to the cache and return it. -/
def processVideoFromUrl (url : String) (cache : Cache)
    (fetchVideoInfo : String → Except String VideoInfo) (o : Oracles) : PipeResult :=
  match cacheGet cache (pipeCacheKey url) with
  | some cached => ⟨.ok cached, cache, 0, []⟩
  | none =>
      match fetchVideoInfo url with
      | .error e => ⟨.error e, cache, 1, []⟩
      | .ok vi =>
          match getTranscript url vi o with
          | (.error e, cs) => ⟨.error e, cache, 1, cs⟩
          | (.ok text, cs) =>
              let r : Record :=
                ⟨pipeVideoUuid url, url, vi.title, vi.channel, vi.description, text⟩
              ⟨.ok r, cacheSet cache (pipeCacheKey url) r, 1, cs⟩

/-! ### Job queue (`processVideo` / `processQueue`, video.ts 86-127) -/

/-- The drain loop body of `processQueue` (video.ts 121-124): shift the
head, `await processVideoFromUrl`.  The loop has no `try`/`catch`, so a
rejection abandons the async function: the failing entry has already
been shifted off, the remaining entries stay queued, and
`this.processing` is never reset to `false` (line 126 is not reached).
Returns (remaining queue, cache, processing flag). -/
def processQueueRun (fi : String → Except String VideoInfo) (o : Oracles) :
    List String → Cache → List String × Cache × Bool
  | [], cache => ([], cache, false)
  | u :: rest, cache =>
      let r := processVideoFromUrl u cache fi o
      match r.outcome with
      | .ok _ => processQueueRun fi o rest r.cache
      | .error _ => (rest, r.cache, true)

/-- `VideoService.processQueue` (video.ts 114-127) including the entry
guard of lines 115-117: a no-op while a drain is marked active or the
queue is empty. -/
def processQueue (processing : Bool) (queue : List String) (cache : Cache)
    (fi : String → Except String VideoInfo) (o : Oracles) :
    List String × Cache × Bool :=
  if processing || queue.isEmpty then (queue, cache, processing)
  else processQueueRun fi o queue cache

/-- `VideoService.processVideo` (video.ts 86-112) for a single
submission on an idle queue: the drain loop runs `processVideoFromUrl`
once (removing the URL from the queue), after which the caller's
`checkQueue` poll observes the URL gone and invokes `processVideoFromUrl`
a second time, resolving the caller's promise with that second result.
Returns (drain run, caller-side run). -/
def processVideoSingle (url : String) (cache : Cache)
    (fi : String → Except String VideoInfo) (o : Oracles) : PipeResult × PipeResult :=
  let d := processVideoFromUrl url cache fi o
  (d, processVideoFromUrl url d.cache fi o)

/-! ### `VideoService.downloadAudio` (video.ts 347-393)

The filesystem is modelled as the list of paths that exist.  For a
direct `.mp4` URL the source fetches the container into the system temp
directory, converts it with ffmpeg, and unlinks the temp file inside the
`end` handler only; the `error` handler rejects without unlinking, and
the outer `catch` rethrows `"Failed to download audio"`. -/

/-- Membership of a needle character list inside a haystack
(JavaScript `String.prototype.includes`). -/
def listHasSub (needle : List Char) : List Char → Bool
  | [] => List.isPrefixOf needle []
  | c :: cs => List.isPrefixOf needle (c :: cs) || listHasSub needle cs

/-- JavaScript `s.includes(sub)`. -/
def strContainsSub (s sub : String) : Bool :=
  listHasSub sub.data s.data

/-- The direct-download test `url.endsWith(".mp4") || url.includes(".mp4?")`
(video.ts line 356). -/
def isMp4Url (url : String) : Bool :=
  List.isPrefixOf ".mp4".data.reverse url.data.reverse || strContainsSub url ".mp4?"

/-- The temp container path `path.join(tmpdir(), getVideoId(url) + ".mp4")`
(video.ts 357-360). -/
def tempMp4Path (tmpDir url : String) : String :=
  tmpDir ++ "/" ++ getVideoId url ++ ".mp4"

/-- Create a file (`fs.writeFileSync` / a tool writing its output); the
filesystem is a set of paths, so an existing path stays as is. -/
def fsAdd (p : String) (fs : List String) : List String :=
  if p ∈ fs then fs else p :: fs

/-- Remove a file (`fs.unlinkSync`). -/
def fsRemove (p : String) (fs : List String) : List String :=
  fs.filter (fun q => q != p)

/-- Outcomes of the external steps `downloadAudio` depends on: the HTTP
fetch of the direct `.mp4` resource, the ffmpeg conversion, and the
youtube-dl audio extraction of the non-direct branch. -/
structure AudioDeps where
  fetchOk : Bool
  convertOk : Bool
  ytdlOk : Bool
deriving DecidableEq

/-- `VideoService.downloadAudio` (video.ts 347-393) over the filesystem
model: for a direct `.mp4` URL, fetch the container to the temp path,
convert it to `outputFile`; on conversion success the `end` handler
unlinks the temp file, on conversion failure the promise rejects with
the temp file left in place and the `catch` throws
`"Failed to download audio"`.  Other URLs go through youtube-dl audio
extraction straight to `outputFile`. -/
def downloadAudio (url outputFile tmpDir : String) (d : AudioDeps)
    (fs : List String) : Except String String × List String :=
  if isMp4Url url then
    if d.fetchOk then
      let fs1 := fsAdd (tempMp4Path tmpDir url) fs
      if d.convertOk then
        (.ok outputFile, fsRemove (tempMp4Path tmpDir url) (fsAdd outputFile fs1))
      else
        (.error "Failed to download audio", fs1)
    else (.error "Failed to download audio", fs)
  else
    if d.ytdlOk then (.ok outputFile, fsAdd outputFile fs)
    else (.error "Failed to download audio", fs)

/-! ### Concrete fixtures used by the witness theorems -/

/-- A metadata record with a manual English subtitle track. -/
def demoVI : VideoInfo :=
  ⟨"T", "C", "D", some [⟨"su"⟩], none, none⟩

/-- A metadata record with both a manual subtitle track and an automatic
caption track. -/
def demoVIBoth : VideoInfo :=
  ⟨"T", "C", "D", some [⟨"su"⟩], some [⟨"cu"⟩], none⟩

/-- Oracles whose subtitle fetch yields a three-line SRT block. -/
def demoO : Oracles :=
  ⟨fun _ => .ok "a\nb\nhello", fun _ => .ok none, fun _ => .ok "tr"⟩

/-- A metadata fetch that fails for the URL `"a"` and succeeds
otherwise. -/
def demoFi : String → Except String VideoInfo :=
  fun u => if u == "a" then .error "boom" else .ok demoVI

/-- A metadata fetch that always succeeds. -/
def demoFiOk : String → Except String VideoInfo :=
  fun _ => .ok demoVI

/-- A transcript record with the constant identifier of non-matching
URLs. -/
def demoRec0 : Record :=
  ⟨"0", "x", "t", "c", "d", "tx"⟩

/-- The record produced by running the pipeline on
`https://youtu.be/abc` with `demoFiOk` and `demoO`. -/
def demoRecAbc : Record :=
  ⟨getVideoId "abc", "https://youtu.be/abc", "T", "C", "D", "hello"⟩

/-- The record produced by running the pipeline on
`https://vimeo.com/1` with `demoFiOk` and `demoO`. -/
def demoRecVimeo : Record :=
  ⟨"0", "https://vimeo.com/1", "T", "C", "D", "hello"⟩

/-- A one-event caption payload whose concatenated text contains two
newlines. -/
def demoEvs : List CaptionEvent :=
  [⟨some [⟨"hi\nx\ny"⟩]⟩]

/-! ### Helper lemmas -/

/-- Two strings with the same character data are equal. -/
theorem stringDataEq {s t : String} (h : s.data = t.data) : s = t := by
  cases s
  cases t
  exact congrArg String.mk h

/-- Appending strings appends their character data. -/
theorem stringAppendData (a b : String) : (a ++ b).data = a.data ++ b.data := by
  cases a
  cases b
  rfl

/-- A fresh cache write is found by the next lookup of the same key. -/
theorem cacheGet_cacheSet_self (cache : Cache) (k : String) (r : Record) :
    cacheGet (cacheSet cache k r) k = some r := by
  unfold cacheGet cacheSet
  rw [List.find?_cons_of_pos _ (by simp)]
  rfl

/-- A cache hit short-circuits the whole pipeline: the cached record is
returned unchanged, the cache is untouched, and neither the metadata
fetch nor the transcript resolver runs. -/
theorem processVideoFromUrl_hit {url : String} {cache : Cache}
    {fi : String → Except String VideoInfo} {o : Oracles} {r : Record}
    (h : cacheGet cache (pipeCacheKey url) = some r) :
    processVideoFromUrl url cache fi o = ⟨.ok r, cache, 0, []⟩ := by
  unfold processVideoFromUrl
  rw [h]

/-- After a successful run, the returned record is stored in the
resulting cache under the run's key. -/
theorem processVideoFromUrl_ok_cached {url : String} {cache : Cache}
    {fi : String → Except String VideoInfo} {o : Oracles} {r : Record}
    (h : (processVideoFromUrl url cache fi o).outcome = .ok r) :
    cacheGet (processVideoFromUrl url cache fi o).cache (pipeCacheKey url) = some r := by
  cases hc : cacheGet cache (pipeCacheKey url) with
  | some cached =>
      have hres := @processVideoFromUrl_hit url cache fi o cached hc
      rw [hres] at h ⊢
      simp only at h ⊢
      rw [hc]
      simp at h
      rw [h]
  | none =>
      cases hf : fi url with
      | error e2 =>
          have hres : processVideoFromUrl url cache fi o = ⟨.error e2, cache, 1, []⟩ := by
            simp only [processVideoFromUrl, hc, hf]
          rw [hres] at h
          simp at h
      | ok vi =>
          cases hg : getTranscript url vi o with
          | mk res cs =>
              cases res with
              | error e2 =>
                  have hres : processVideoFromUrl url cache fi o = ⟨.error e2, cache, 1, cs⟩ := by
                    simp only [processVideoFromUrl, hc, hf, hg]
                  rw [hres] at h
                  simp at h
              | ok text =>
                  have hres : processVideoFromUrl url cache fi o =
                      ⟨.ok ⟨pipeVideoUuid url, url, vi.title, vi.channel, vi.description, text⟩,
                       cacheSet cache (pipeCacheKey url)
                         ⟨pipeVideoUuid url, url, vi.title, vi.channel, vi.description, text⟩,
                       1, cs⟩ := by
                    simp only [processVideoFromUrl, hc, hf, hg]
                  rw [hres] at h ⊢
                  simp only at h ⊢
                  rw [show r = ⟨pipeVideoUuid url, url, vi.title, vi.channel, vi.description, text⟩ from by
                    simpa using h.symm]
                  exact cacheGet_cacheSet_self ..

/-- A failed run leaves the cache unchanged and has performed exactly
one metadata fetch. -/
theorem processVideoFromUrl_error {url : String} {cache : Cache}
    {fi : String → Except String VideoInfo} {o : Oracles} {e : String}
    (h : (processVideoFromUrl url cache fi o).outcome = .error e) :
    processVideoFromUrl url cache fi o =
      ⟨.error e, cache, 1, (processVideoFromUrl url cache fi o).calls⟩ := by
  cases hc : cacheGet cache (pipeCacheKey url) with
  | some cached =>
      have hres := @processVideoFromUrl_hit url cache fi o cached hc
      rw [hres] at h
      simp at h
  | none =>
      cases hf : fi url with
      | error e2 =>
          have hres : processVideoFromUrl url cache fi o = ⟨.error e2, cache, 1, []⟩ := by
            simp only [processVideoFromUrl, hc, hf]
          rw [hres] at h ⊢
          simp only at h
          rw [show e2 = e from by simpa using h]
      | ok vi =>
          cases hg : getTranscript url vi o with
          | mk res cs =>
              cases res with
              | error e2 =>
                  have hres : processVideoFromUrl url cache fi o = ⟨.error e2, cache, 1, cs⟩ := by
                    simp only [processVideoFromUrl, hc, hf, hg]
                  rw [hres] at h ⊢
                  simp only at h
                  rw [show e2 = e from by simpa using h]
              | ok text =>
                  have hres : processVideoFromUrl url cache fi o =
                      ⟨.ok ⟨pipeVideoUuid url, url, vi.title, vi.channel, vi.description, text⟩,
                       cacheSet cache (pipeCacheKey url)
                         ⟨pipeVideoUuid url, url, vi.title, vi.channel, vi.description, text⟩,
                       1, cs⟩ := by
                    simp only [processVideoFromUrl, hc, hf, hg]
                  rw [hres] at h
                  simp at h

/-- Replacing the first newline of `a ++ '\n' :: b` when `a` is
newline-free yields `a ++ ' ' :: b`: later newlines (inside `b`) are left
unchanged. -/
theorem replaceFirstNLList_append {a : List Char} (b : List Char) (h : '\n' ∉ a) :
    replaceFirstNLList (a ++ '\n' :: b) = a ++ ' ' :: b := by
  induction a with
  | nil => simp [replaceFirstNLList]
  | cons c cs ih =>
      have hc : ¬c = '\n' := fun hh => h (by rw [hh]; exact List.mem_cons_self _ _)
      have hcs : '\n' ∉ cs := fun hm => h (List.mem_cons_of_mem _ hm)
      simp [replaceFirstNLList, hc, ih hcs]

/-- `segs.map(seg => seg.utf8)` on the encoding of well-formed segments
succeeds with their `utf8` strings. -/
theorem segUtf8s_map (ss : List CaptionSeg) :
    segUtf8s (ss.map segToJson) = .ok (ss.map (fun s => some (.str s.utf8))) := by
  induction ss with
  | nil => rfl
  | cons s ss ih => simp [segToJson, segUtf8s, jsGet, lookupField, ih]

/-- One kept well-formed event contributes the concatenation of its
fragments. -/
theorem eventText_someSegs (ss : List CaptionSeg) :
    eventText (eventToJson ⟨some ss⟩) = .ok (String.join (ss.map (fun s => s.utf8))) := by
  simp [eventToJson, eventText, jsGet, lookupField, segUtf8s_map, List.map_map]
  have hfun : (joinItem ∘ fun s : CaptionSeg => some (Json.str s.utf8)) = fun s => s.utf8 := by
    funext s
    rfl
  rw [hfun]

/-- The filter step keeps exactly the events whose `segs` is present. -/
theorem filterSegs_map (evs : List CaptionEvent) :
    filterSegs (evs.map eventToJson) =
      .ok ((keptEvents evs).map (fun ss => eventToJson ⟨some ss⟩)) := by
  induction evs with
  | nil => rfl
  | cons e evs ih =>
      obtain ⟨segs⟩ := e
      cases segs with
      | none =>
          simp [eventToJson, filterSegs, segsTruthy, jsGet, lookupField, keptEvents,
            List.filterMap_cons, ih]
      | some ss =>
          simp [eventToJson, filterSegs, segsTruthy, jsGet, lookupField, truthy, keptEvents,
            List.filterMap_cons, ih]

/-- The map step over the kept events succeeds with each event's
concatenated text. -/
theorem mapEventTexts_kept (kss : List (List CaptionSeg)) :
    mapEventTexts (kss.map (fun ss => eventToJson ⟨some ss⟩)) =
      .ok (kss.map (fun ss => String.join (ss.map (fun s => s.utf8)))) := by
  induction kss with
  | nil => rfl
  | cons ss kss ih => simp [mapEventTexts, eventText_someSegs, ih]

/-- On any well-formed caption payload, `parseCaption` returns the
in-order concatenation of all fragments with only its first newline
replaced. -/
theorem parseCaption_payload (evs : List CaptionEvent) :
    parseCaption (some (captionPayload evs)) = replaceFirstNewline (captionConcat evs) := by
  simp [parseCaption, parseCaptionRun, captionPayload, jsGet, lookupField, truthy,
    filterSegs_map, mapEventTexts_kept, captionConcat]

/-- Removing a path removes it from the filesystem model. -/
theorem not_mem_fsRemove (p : String) (l : List String) : p ∉ fsRemove p l := by
  simp [fsRemove, List.mem_filter]

/-- A created path is present in the filesystem model. -/
theorem mem_fsAdd_self (p : String) (l : List String) : p ∈ fsAdd p l := by
  unfold fsAdd
  split
  · assumption
  · exact List.mem_cons_self _ _

/-! ### Claim C1: queue failure isolation -/

/-- Counterexample for claim C1 ("if processing one submission throws,
the drain loop continues to process every subsequently queued URL"): with
URLs `"a"` then `"b"` queued and a metadata fetch that fails for `"a"`,
the drain halts at the failure, leaving `"b"` still queued and the
processing flag still set, and a retriggered `processQueue` is a no-op
because of that flag — so the submission of `"b"` never completes. -/
theorem c1_counterexample :
    processQueueRun demoFi demoO ["a", "b"] [] = (["b"], [], true) ∧
    processQueue true ["b"] [] demoFi demoO = (["b"], [], true) :=
  ⟨rfl, rfl⟩

/-- Claim C1 as amended: the drain loop of `processQueue` has no
`try`/`catch`, so when processing the head submission throws, that
submission fails, the loop is abandoned with the `processing` flag left
`true`, the cache unchanged, and every subsequently queued URL remains
pending unprocessed (those submissions never complete). -/
theorem c1_drain_halts_on_failure (fi : String → Except String VideoInfo) (o : Oracles)
    (u : String) (rest : List String) (cache : Cache) (e : String)
    (h : (processVideoFromUrl u cache fi o).outcome = .error e) :
    processQueueRun fi o (u :: rest) cache = (rest, cache, true) := by
  have hres := processVideoFromUrl_error h
  simp only [processQueueRun]
  rw [hres]

/-- Witness for `c1_drain_halts_on_failure` at a concrete failing
head. -/
theorem c1_drain_halts_on_failure_witness :
    processQueueRun demoFi demoO ["a", "b", "c"] [] = (["b", "c"], [], true) :=
  c1_drain_halts_on_failure demoFi demoO "a" ["b", "c"] [] "boom" (by rfl)

/-! ### Claim C2: cache-key derivation -/

/-- Counterexample for claim C2 ("... falling back to the raw URL string
when no pattern matches"): for the non-matching URL
`https://example.com/video` the pipeline's uuid is the hash of the empty
string, not the hash of the raw URL. -/
theorem c2_counterexample :
    ytExtract "https://example.com/video" = none ∧
    pipeVideoUuid "https://example.com/video" ≠ getVideoId "https://example.com/video" := by
  refine ⟨rfl, ?_⟩
  decide

/-- Claim C2 as amended: the ContentIdentifier is derived from the
canonical video ID when the pattern matches, but from the EMPTY string
(not the raw URL) when no pattern matches — so every non-matching URL
gets the constant uuid hash `"0"` and the constant cache key
`content/video/0`, at which the pipeline both looks up and stores. -/
theorem c2_fallback_empty (u : String) (cache : Cache)
    (fi : String → Except String VideoInfo) (o : Oracles) (r : Record)
    (h : ytExtract u = none) :
    pipeCacheKey u = "content/video/0" ∧
    (cacheGet cache "content/video/0" = some r →
      processVideoFromUrl u cache fi o = ⟨.ok r, cache, 0, []⟩) := by
  have hk : pipeCacheKey u = "content/video/0" := by
    unfold pipeCacheKey pipeVideoUuid
    rw [h]
    rfl
  exact ⟨hk, fun hget => processVideoFromUrl_hit (by rw [hk]; exact hget)⟩

/-- Witness for `c2_fallback_empty`: a record cached under
`content/video/0` is returned for the fresh non-matching URL
`https://example.com/a` without running the pipeline. -/
theorem c2_fallback_empty_witness :
    processVideoFromUrl "https://example.com/a" [("content/video/0", demoRec0)] demoFiOk demoO =
      ⟨.ok demoRec0, [("content/video/0", demoRec0)], 0, []⟩ :=
  (c2_fallback_empty "https://example.com/a" [("content/video/0", demoRec0)]
    demoFiOk demoO demoRec0 (by rfl)).2 (by rfl)

/-! ### Claim C3: cache idempotence -/

/-- Claim C3: once a resolve of a URL completes (its record is in the
cache), a second resolve of the same URL — with any metadata fetch and
any transcript oracles — returns that identical record from the cache,
leaves the cache unchanged, performs no metadata fetch and makes no
transcript-resolver call. -/
theorem c3_cache_idempotent (url : String) (cache : Cache)
    (fi fi2 : String → Except String VideoInfo) (o o2 : Oracles) (r : Record)
    (h : (processVideoFromUrl url cache fi o).outcome = .ok r) :
    processVideoFromUrl url (processVideoFromUrl url cache fi o).cache fi2 o2 =
      ⟨.ok r, (processVideoFromUrl url cache fi o).cache, 0, []⟩ :=
  processVideoFromUrl_hit (processVideoFromUrl_ok_cached h)

/-- Witness for `c3_cache_idempotent` on `https://youtu.be/abc`. -/
theorem c3_cache_idempotent_witness :
    processVideoFromUrl "https://youtu.be/abc"
        (processVideoFromUrl "https://youtu.be/abc" [] demoFiOk demoO).cache demoFiOk demoO =
      ⟨.ok demoRecAbc,
       (processVideoFromUrl "https://youtu.be/abc" [] demoFiOk demoO).cache, 0, []⟩ :=
  c3_cache_idempotent "https://youtu.be/abc" [] demoFiOk demoFiOk demoO demoO demoRecAbc (by rfl)

/-! ### Claim C4: resolver priority ordering -/

/-- Claim C4: when both the English manual-subtitle track and the
English automatic-caption track are present, `getTranscript` downloads
the subtitle resource only (and parses it as SRT on success), never
invoking the caption download or the transcription capability. -/
theorem c4_manual_subtitles_priority (url : String) (vi : VideoInfo) (o : Oracles)
    (t : SubtitleTrack) (ts cs : List SubtitleTrack)
    (hs : vi.subtitles_en = some (t :: ts))
    (hcap : vi.automatic_captions_en = some cs) :
    (getTranscript url vi o).2 = [Call.srt t.url] ∧
    (∀ cu, Call.caption cu ∉ (getTranscript url vi o).2) ∧
    Call.transcribe ∉ (getTranscript url vi o).2 ∧
    (∀ content, o.srtFetch t.url = .ok content →
      (getTranscript url vi o).1 = .ok (parseSRT content)) := by
  cases hf : o.srtFetch t.url with
  | ok content =>
      have h2 : getTranscript url vi o = (.ok (parseSRT content), [.srt t.url]) := by
        simp only [getTranscript, hs, hf]
      rw [h2]
      refine ⟨rfl, ?_, ?_, ?_⟩
      · intro cu hmem
        simp at hmem
      · intro hmem
        simp at hmem
      · intro c hcc
        cases Except.ok.inj hcc
        rfl
  | error e =>
      have h2 : getTranscript url vi o = (.error e, [.srt t.url]) := by
        simp only [getTranscript, hs, hf]
      rw [h2]
      refine ⟨rfl, ?_, ?_, ?_⟩
      · intro cu hmem
        simp at hmem
      · intro hmem
        simp at hmem
      · intro c hcc
        exact Except.noConfusion hcc

/-- Witness for `c4_manual_subtitles_priority` on a `VideoInfo` carrying
both track kinds. -/
theorem c4_manual_subtitles_priority_witness :
    (getTranscript "u" demoVIBoth demoO).2 = [Call.srt "su"] :=
  (c4_manual_subtitles_priority "u" demoVIBoth demoO ⟨"su"⟩ [] [⟨"cu"⟩] (by rfl) (by rfl)).1

/-! ### Claim C5: caption parse failure recovery -/

/-- Claim C5: for any caption payload that is not valid JSON (the parse
threw) or whose parsed value has no `events` property, `parseCaption`
returns exactly the sentinel string and does not throw. -/
theorem c5_parse_caption_failure_sentinel (p : Option Json)
    (h : p = none ∨ ∃ j, p = some j ∧ ∀ v, jsGet j "events" ≠ Except.ok (some v)) :
    parseCaption p = "Error: Unable to parse captions" := by
  rcases h with h | ⟨j, hp, hj⟩
  · rw [h]
    rfl
  · rw [hp]
    cases hev : jsGet j "events" with
    | error x => simp [parseCaption, parseCaptionRun, hev]
    | ok v =>
        cases v with
        | none => simp [parseCaption, parseCaptionRun, hev]
        | some w => exact absurd hev (hj w)

/-- Witness for `c5_parse_caption_failure_sentinel` at the parsed value
`null` (property access on `null` throws inside the `try`). -/
theorem c5_parse_caption_failure_sentinel_witness :
    parseCaption (some Json.null) = "Error: Unable to parse captions" :=
  c5_parse_caption_failure_sentinel (some Json.null)
    (Or.inr ⟨Json.null, rfl, fun _ hv => Except.noConfusion hv⟩)

/-! ### Claim C6: caption newline collapse scope -/

/-- Claim C6: on a well-formed caption payload whose concatenated
fragment text is `a ++ "\n" ++ b` with `a` newline-free, `parseCaption`
returns `a ++ " " ++ b`: only the first newline of the in-order
concatenation is replaced by a space, every later newline (any inside
`b`) is unchanged. -/
theorem c6_first_newline_only (evs : List CaptionEvent) (a b : String)
    (hsplit : captionConcat evs = a ++ "\n" ++ b) (ha : '\n' ∉ a.data) :
    parseCaption (some (captionPayload evs)) = a ++ " " ++ b := by
  rw [parseCaption_payload, hsplit]
  apply stringDataEq
  show replaceFirstNLList (a ++ "\n" ++ b).data = (a ++ " " ++ b).data
  rw [stringAppendData, stringAppendData, stringAppendData, stringAppendData]
  rw [show ("\n" : String).data = ['\n'] from rfl, show (" " : String).data = [' '] from rfl]
  rw [List.append_assoc, List.append_assoc]
  exact replaceFirstNLList_append b.data ha

/-- Witness for `c6_first_newline_only` on a payload whose text contains
two newlines: the second survives. -/
theorem c6_first_newline_only_witness :
    parseCaption (some (captionPayload demoEvs)) = "hi" ++ " " ++ "x\ny" :=
  c6_first_newline_only demoEvs "hi" "x\ny" (by rfl) (by decide)

/-! ### Claim C7: transcoding temp-file cleanup -/

/-- Counterexample for claim C7 ("the temporary container file ... is
removed after the conversion finishes, on both the success path and the
error path"): for a direct `.mp4` URL whose conversion fails, the run
throws but the temp container is left in the temp directory — only the
`end` handler unlinks it. -/
theorem c7_counterexample :
    (downloadAudio "http://x/a.mp4" "o.mp3" "/tmp" ⟨true, false, true⟩ []).1 =
      .error "Failed to download audio" ∧
    tempMp4Path "/tmp" "http://x/a.mp4" ∈
      (downloadAudio "http://x/a.mp4" "o.mp3" "/tmp" ⟨true, false, true⟩ []).2 := by
  refine ⟨rfl, ?_⟩
  have h2 : (downloadAudio "http://x/a.mp4" "o.mp3" "/tmp" ⟨true, false, true⟩ []).2 =
      [tempMp4Path "/tmp" "http://x/a.mp4"] := rfl
  rw [h2]
  exact List.mem_singleton_self _

/-- Claim C7 as amended: for every direct `.mp4` URL taken through the
audio-download path, the temp container is removed after a successful
conversion, but on a failed conversion the error path leaves the temp
file in place (no cleanup in the `error` handler). -/
theorem c7_temp_cleanup_success_only (url out tmpDir : String) (fs : List String) (ytb : Bool)
    (hm : isMp4Url url = true) :
    ((downloadAudio url out tmpDir ⟨true, true, ytb⟩ fs).1 = .ok out ∧
      tempMp4Path tmpDir url ∉ (downloadAudio url out tmpDir ⟨true, true, ytb⟩ fs).2) ∧
    ((downloadAudio url out tmpDir ⟨true, false, ytb⟩ fs).1 = .error "Failed to download audio" ∧
      tempMp4Path tmpDir url ∈ (downloadAudio url out tmpDir ⟨true, false, ytb⟩ fs).2) := by
  have hsucc : downloadAudio url out tmpDir ⟨true, true, ytb⟩ fs =
      (.ok out, fsRemove (tempMp4Path tmpDir url)
        (fsAdd out (fsAdd (tempMp4Path tmpDir url) fs))) := by
    unfold downloadAudio
    rw [hm]
    rfl
  have hfail : downloadAudio url out tmpDir ⟨true, false, ytb⟩ fs =
      (.error "Failed to download audio", fsAdd (tempMp4Path tmpDir url) fs) := by
    unfold downloadAudio
    rw [hm]
    rfl
  rw [hsucc, hfail]
  exact ⟨⟨rfl, not_mem_fsRemove _ _⟩, ⟨rfl, mem_fsAdd_self _ _⟩⟩

/-- Witness for `c7_temp_cleanup_success_only`: the success path of a
concrete direct `.mp4` URL does clean up its temp container. -/
theorem c7_temp_cleanup_success_only_witness :
    (downloadAudio "http://x/a.mp4" "o.mp3" "/tmp" ⟨true, true, true⟩ []).1 = .ok "o.mp3" ∧
    tempMp4Path "/tmp" "http://x/a.mp4" ∉
      (downloadAudio "http://x/a.mp4" "o.mp3" "/tmp" ⟨true, true, true⟩ []).2 :=
  (c7_temp_cleanup_success_only "http://x/a.mp4" "o.mp3" "/tmp" [] true (by rfl)).1

/-! ### Claim C8: SRT parse example -/

/-- Claim C8: `parseSRT` on the two-block example input returns exactly
`"Hello world Second line "`. -/
theorem c8_srt_example :
    parseSRT "1\n00:00:00,000 --> 00:00:02,000\nHello world\n\n2\n00:00:02,000 --> 00:00:04,000\nSecond line\n\n" =
      "Hello world Second line " := by
  rfl

/-! ### Claim C9: cache-key collision for non-matching URLs -/

/-- Claim C9: two distinct URLs neither of which matches the YouTube
pattern derive the identical cache key (the namespace joined with the
hash of the empty string), so after a successful resolve of the first, a
resolve of the second — with any oracles — returns the first URL's
record via the shared cache entry, with no metadata fetch and no
transcript-resolver call. -/
theorem c9_nonmatching_collision (u1 u2 : String) (cache : Cache)
    (fi fi2 : String → Except String VideoInfo) (o o2 : Oracles) (r : Record)
    (hne : u1 ≠ u2) (h1 : ytExtract u1 = none) (h2 : ytExtract u2 = none)
    (hok : (processVideoFromUrl u1 cache fi o).outcome = .ok r) :
    pipeCacheKey u1 = pipeCacheKey u2 ∧
    processVideoFromUrl u2 (processVideoFromUrl u1 cache fi o).cache fi2 o2 =
      ⟨.ok r, (processVideoFromUrl u1 cache fi o).cache, 0, []⟩ := by
  have hk : pipeCacheKey u1 = pipeCacheKey u2 := by
    unfold pipeCacheKey pipeVideoUuid
    rw [h1, h2]
  refine ⟨hk, processVideoFromUrl_hit ?_⟩
  rw [← hk]
  exact processVideoFromUrl_ok_cached hok

/-- Witness for `c9_nonmatching_collision`: after resolving
`https://vimeo.com/1`, resolving the distinct URL
`https://example.com/a` returns the vimeo URL's record. -/
theorem c9_nonmatching_collision_witness :
    processVideoFromUrl "https://example.com/a"
        (processVideoFromUrl "https://vimeo.com/1" [] demoFiOk demoO).cache demoFiOk demoO =
      ⟨.ok demoRecVimeo,
       (processVideoFromUrl "https://vimeo.com/1" [] demoFiOk demoO).cache, 0, []⟩ :=
  (c9_nonmatching_collision "https://vimeo.com/1" "https://example.com/a" []
    demoFiOk demoFiOk demoO demoO demoRecVimeo (by decide) (by rfl) (by rfl) (by rfl)).2

/-! ### Claim C10: double invocation per submission -/

/-- Claim C10: in `processVideo`, once the drain run has removed the
submitted URL from the queue, the caller's polling wait runs
`processVideoFromUrl` a second time and resolves with that second
result; when the drain run succeeded, the caller receives the drain
run's record purely via a cache hit (no re-fetch), and when the drain
run failed before writing the cache, the caller-side invocation
re-executes the full pipeline (its metadata fetch runs again). -/
theorem c10_double_invocation (url : String) (cache : Cache)
    (fi : String → Except String VideoInfo) (o : Oracles) :
    (∀ r, (processVideoFromUrl url cache fi o).outcome = .ok r →
      (processVideoSingle url cache fi o).2 =
        ⟨.ok r, (processVideoFromUrl url cache fi o).cache, 0, []⟩) ∧
    (∀ e, (processVideoFromUrl url cache fi o).outcome = .error e →
      (processVideoSingle url cache fi o).2 = processVideoFromUrl url cache fi o ∧
      (processVideoSingle url cache fi o).2.infoCalls = 1) := by
  constructor
  · intro r h
    show processVideoFromUrl url (processVideoFromUrl url cache fi o).cache fi o = _
    exact processVideoFromUrl_hit (processVideoFromUrl_ok_cached h)
  · intro e h
    have hres := processVideoFromUrl_error h
    have hcache : (processVideoFromUrl url cache fi o).cache = cache :=
      congrArg PipeResult.cache hres
    constructor
    · show processVideoFromUrl url (processVideoFromUrl url cache fi o).cache fi o = _
      rw [hcache]
    · show (processVideoFromUrl url (processVideoFromUrl url cache fi o).cache fi o).infoCalls = 1
      rw [hcache, hres]

/-- Witness for `c10_double_invocation`: a drain-run failure on `"a"`
makes the caller-side invocation re-run the full pipeline, fetching
metadata again. -/
theorem c10_double_invocation_witness :
    (processVideoSingle "a" [] demoFi demoO).2 = processVideoFromUrl "a" [] demoFi demoO ∧
    (processVideoSingle "a" [] demoFi demoO).2.infoCalls = 1 :=
  (c10_double_invocation "a" [] demoFi demoO).2 "boom" (by rfl)

end PluginVideo
